import Mathlib

/-!
# Verification of the wager-backed arena core (settlement, ledger, physics, commitment)

Shallow embedding of the repository's match engine and escrow core, with
theorems settling the specification claims against it.

Modelling conventions, used throughout:

* Money amounts are integers (`ℤ`), exactly as the schema stores them
  (`BIGINT` minor units).
* JavaScript `number` arithmetic on non-money quantities (masses, radii,
  RNG draws) is modelled over `ℚ` with exact literals (`0.65` as `65/100`,
  `1.15` as `23/20`, …).  Every concrete input evaluated in a theorem below
  was chosen so that IEEE-754 double evaluation and exact rational
  evaluation agree (the values are small integers or dyadic rationals far
  from any rounding boundary), so the `ℚ` reading is faithful on them.
* The transcendental library calls (`Math.sqrt`, `Math.cos`, `Math.sin`,
  `Math.atan2`, `Math.PI`) are abstracted into a `NumOps` record; theorems
  either hold for every instantiation or are evaluated at a computable
  rational stand-in `ratOps` on inputs where their values provably do not
  matter (multiplication by a zero radius, distance between equal points).
* Ambient effects of the source are passed explicitly: `Date.now()` becomes
  a `now : ℤ` argument, `Math.random()` an explicit entropy list, and
  `uuidv4()` a counter (the ids are used only as map keys).
* Strings fed to hash functions are modelled as their byte sequences
  (`List ℕ`, each element `< 256`).
-/

/- Batteries marks the `ℚ` field operations `@[irreducible]`, which blocks
`decide`/`rfl` evaluation of concrete rational arithmetic in the elaborator
(the kernel ignores reducibility).  Restore default transparency for this
file so concrete traces evaluate. -/
attribute [local semireducible] Rat.mul Rat.inv Rat.add Rat.sub Rat.ofScientific

/- The concrete traces below (full match ticks, SHA-256 digests of all
single-bit corruptions) are evaluated by kernel reduction; raise the
elaborator's recursion and work budgets accordingly. -/
set_option maxRecDepth 4000000
set_option maxHeartbeats 16000000

namespace Agar

/-! ## Settlement: `Match.calculateResults`
(src/packages/game-server/src/physics/engine.ts, `Match.calculateResults`). -/

/-- `PayoutModel` from `@agar/shared`. -/
inductive PayoutModel where
  | winnerTakeAll
  | top3Ladder
  | proportional
deriving DecidableEq, Repr

/-- The slice of `MatchConfig` that `calculateResults` reads. -/
structure SettleCfg where
  buyInCents : ℤ
  rakeBps : ℤ
  rakeCapCents : ℤ
  payoutModel : PayoutModel
  numPlayers : ℕ
deriving Repr

/-- `pot = this.config.buyInCents * this.config.players.length`. -/
def potOf (cfg : SettleCfg) : ℤ :=
  cfg.buyInCents * cfg.numPlayers

/-- `rake = Math.min(Math.floor((pot * rakeBps) / 10000), rakeCapCents)`. -/
def rakeOf (cfg : SettleCfg) : ℤ :=
  min ⌊((potOf cfg * cfg.rakeBps : ℤ) : ℚ) / 10000⌋ cfg.rakeCapCents

/-- `netPot = pot - rake`. -/
def netPotOf (cfg : SettleCfg) : ℤ :=
  potOf cfg - rakeOf cfg

/-- One payout slot: the `payouts[i]` the source computes for the player at
(0-based) rank `i` with final mass `mass`, given the total final mass.
Transcribes the `switch (this.config.payoutModel)` block. -/
def payoutAt (model : PayoutModel) (netPot : ℤ) (totalMass mass : ℚ) (i : ℕ) : ℤ :=
  match model with
  | .winnerTakeAll => if i = 0 then netPot else 0
  | .top3Ladder =>
      if i = 0 then ⌊(netPot : ℚ) * (65 / 100)⌋
      else if i = 1 then ⌊(netPot : ℚ) * (25 / 100)⌋
      else if i = 2 then ⌊(netPot : ℚ) * (1 / 10)⌋
      else 0
  | .proportional =>
      if 0 < totalMass then ⌊mass / totalMass * (netPot : ℚ)⌋ else 0

/-- Stable insertion into a mass-descending list: a strictly heavier player
moves forward, a tie stays behind the earlier-placed one. -/
def insertByMassDesc (x : String × ℚ) : List (String × ℚ) → List (String × ℚ)
  | [] => [x]
  | y :: ys => if x.2 > y.2 then x :: y :: ys else y :: insertByMassDesc x ys

/-- `sortedPlayers`: `.sort((a, b) => b.finalMass - a.finalMass)` — stable
descending sort on final mass (ECMAScript `Array.prototype.sort` is stable;
a stable sort of a total preorder is unique, so this stable insertion sort
produces the same array). -/
def sortByMassDesc (players : List (String × ℚ)) : List (String × ℚ) :=
  players.foldl (fun acc p => insertByMassDesc p acc) []

/-- A row of the array `calculateResults` returns:
`{userId, placement, finalMass, payoutCents}` (we drop `maxMass`, which the
source sets to a copy of `finalMass`). -/
structure ResultRow where
  userId : String
  placement : ℕ
  finalMass : ℚ
  payoutCents : ℤ
deriving DecidableEq, Repr

/-- `Match.calculateResults`, over the players' `(userId, mass)` pairs in map
insertion order. -/
def calculateResults (cfg : SettleCfg) (players : List (String × ℚ)) :
    List ResultRow :=
  let sorted := sortByMassDesc players
  let netPot := netPotOf cfg
  let totalMass := (sorted.map (·.2)).sum
  (List.range sorted.length).zipWith
    (fun i p =>
      { userId := p.1
        placement := i + 1
        finalMass := p.2
        payoutCents := payoutAt cfg.payoutModel netPot totalMass p.2 i })
    sorted

/-- Sum of the payout column. -/
def payoutSum (rows : List ResultRow) : ℤ :=
  (rows.map (·.payoutCents)).sum

/-! ## Physics kernel: `PhysicsEngine.canEat`
(src/packages/game-server/src/physics/engine.ts). -/

/-- The `Player` runtime entity from `@agar/shared` (numeric fields over `ℚ`,
`id` a counter standing in for the uuid key). -/
structure Player where
  id : ℕ
  userId : String
  teamNo : ℤ
  posX : ℚ
  posY : ℚ
  radius : ℚ
  mass : ℚ
  velX : ℚ
  velY : ℚ
  inputX : ℚ
  inputY : ℚ
  boost : Bool
  lastBoostTime : ℤ
  isDead : Bool
  kills : ℕ
deriving DecidableEq, Repr

/-- `GAME_CONFIG.COLLISION_SIZE_RATIO` (`1.15`). -/
def collisionSizeRatio : ℚ := 23 / 20

/-- `PhysicsEngine.canEat`. -/
def canEat (eater target : Player) : Bool :=
  if eater.isDead || target.isDead then false
  else if eater.teamNo > 0 && eater.teamNo == target.teamNo then false
  else decide (eater.radius > target.radius * collisionSizeRatio)

/-! ## Ledger / escrow: `WalletService` (src/unnamed/part_005)

Modelled from the spec: the `db.transaction` helper (`db/pool.ts`, not under
`src/`) is modelled as one atomic commit per call — on success all of the
callback's writes are applied, on any thrown error none are ("all money
operations are atomic at a single commit; on any failure the transaction
rolls back fully").  Each `db.transaction` call checks out its own pool
client, so a `db.transaction` opened *inside* another one commits
independently of the outer one.  Operations below therefore return
`Except`: an `error` result carries no state change of its own transaction.
`uuidv4()` row ids become the counter `nextId`. -/

deriving instance DecidableEq for Except

/-- `WalletTransactionType` from `@agar/shared`. -/
inductive TxType where
  | deposit
  | withdrawal
  | escrowLock
  | escrowRelease
  | payoutTx
  | rakeTx
  | refund
deriving DecidableEq, Repr

/-- `WalletTransactionStatus` from `@agar/shared`. -/
inductive TxStatus where
  | pending
  | completed
  | failed
  | cancelled
deriving DecidableEq, Repr

/-- KYC states from the `profiles.kyc_status` check constraint. -/
inductive Kyc where
  | none
  | pending
  | approved
  | rejected
deriving DecidableEq, Repr

/-- A `wallet_tx` ledger row (`ref` holds the serialized reference blob;
amounts over `ℚ` because `settleMatch` passes a JavaScript quotient). -/
structure TxRow where
  id : ℕ
  userId : String
  txType : TxType
  amountCents : ℚ
  status : TxStatus
  ref : String
  key : Option String
deriving DecidableEq, Repr

/-- A `wallets` row. -/
structure Wallet where
  available : ℚ
  escrow : ℚ
  version : ℕ
deriving DecidableEq, Repr

/-- The transactional store the `WalletService` queries touch. -/
structure LedgerDB where
  wallets : List (String × Wallet)
  profiles : List (String × Kyc)
  txs : List TxRow
  nextId : ℕ
deriving DecidableEq, Repr

/-- `SELECT ... FROM wallets WHERE user_id = $1`. -/
def lookupWallet (ws : List (String × Wallet)) (u : String) : Option Wallet :=
  (ws.find? (fun p => p.1 == u)).map (·.2)

/-- `UPDATE wallets SET ... WHERE user_id = $1` — touches the matching row,
silently no rows when the user has no wallet (SQL `UPDATE` semantics). -/
def updateWallet (ws : List (String × Wallet)) (u : String) (f : Wallet → Wallet) :
    List (String × Wallet) :=
  ws.map (fun p => if p.1 == u then (p.1, f p.2) else p)

/-- `SELECT id, status FROM wallet_tx WHERE idempotency_key = $1`. -/
def findTxByKey (txs : List TxRow) (k : String) : Option TxRow :=
  txs.find? (fun r => r.key == some k)

/-- `UPDATE wallet_tx SET status = $1 WHERE id = $2`. -/
def setTxStatus (txs : List TxRow) (i : ℕ) (s : TxStatus) : List TxRow :=
  txs.map (fun r => if r.id == i then { r with status := s } else r)

/-- `SELECT kyc_status FROM profiles WHERE user_id = $1`. -/
def lookupKyc (ps : List (String × Kyc)) (u : String) : Option Kyc :=
  (ps.find? (fun p => p.1 == u)).map (·.2)

/-- `WalletService.deposit`.  Returns the transaction id and the committed
state, or an error (in which case the transaction left no state change). -/
def deposit (db : LedgerDB) (userId : String) (amountCents : ℚ) (ref : String)
    (idempotencyKey : Option String) : Except String (ℕ × LedgerDB) :=
  if amountCents ≤ 0 then .error "Deposit amount must be positive"
  else
    match idempotencyKey.bind (findTxByKey db.txs) with
    | some row =>
        if row.status = .completed then .ok (row.id, db)
        else .error "Transaction already in progress"
    | none =>
        let txId := db.nextId
        let txs₁ := db.txs ++
          [{ id := txId, userId := userId, txType := .deposit,
             amountCents := amountCents, status := .pending, ref := ref,
             key := idempotencyKey }]
        let ws₁ := updateWallet db.wallets userId (fun w =>
          { w with available := w.available + amountCents,
                   version := w.version + 1 })
        let txs₂ := setTxStatus txs₁ txId .completed
        .ok (txId, { db with wallets := ws₁, txs := txs₂, nextId := db.nextId + 1 })

/-- `WalletService.withdraw`. -/
def withdraw (db : LedgerDB) (userId : String) (amountCents : ℚ) (method : String)
    (idempotencyKey : Option String) : Except String (ℕ × LedgerDB) :=
  if amountCents ≤ 0 then .error "Withdrawal amount must be positive"
  else if lookupKyc db.profiles userId ≠ some .approved then
    .error "KYC approval required for withdrawals"
  else
    match idempotencyKey.bind (findTxByKey db.txs) with
    | some row =>
        if row.status = .completed then .ok (row.id, db)
        else .error "Transaction already in progress"
    | none =>
        match lookupWallet db.wallets userId with
        | none => .error "Insufficient balance"
        | some w =>
            if w.available < amountCents then .error "Insufficient balance"
            else
              let txId := db.nextId
              let txs₁ := db.txs ++
                [{ id := txId, userId := userId, txType := .withdrawal,
                   amountCents := -amountCents, status := .pending, ref := method,
                   key := idempotencyKey }]
              let ws₁ := updateWallet db.wallets userId (fun w =>
                { w with available := w.available - amountCents,
                         version := w.version + 1 })
              let txs₂ := setTxStatus txs₁ txId .completed
              .ok (txId, { db with wallets := ws₁, txs := txs₂,
                                   nextId := db.nextId + 1 })

/-- `WalletService.lockEscrow`. -/
def lockEscrow (db : LedgerDB) (userId : String) (amountCents : ℚ)
    (matchId : String) : Except String LedgerDB :=
  if amountCents ≤ 0 then .error "Escrow amount must be positive"
  else
    match lookupWallet db.wallets userId with
    | none => .error "Insufficient balance for buy-in"
    | some w =>
        if w.available < amountCents then .error "Insufficient balance for buy-in"
        else
          let ws₁ := updateWallet db.wallets userId (fun w =>
            { w with available := w.available - amountCents,
                     escrow := w.escrow + amountCents,
                     version := w.version + 1 })
          let txs₁ := db.txs ++
            [{ id := db.nextId, userId := userId, txType := .escrowLock,
               amountCents := amountCents, status := .completed, ref := matchId,
               key := none }]
          .ok { db with wallets := ws₁, txs := txs₁, nextId := db.nextId + 1 }

/-- The `wallets` row CHECK constraints of `schema.sql` (applied verbatim by
`migrate.ts`): `available_cents >= 0` and `escrow_cents >= 0`.  PostgreSQL
validates them on every row an `UPDATE` writes; a violation aborts the
enclosing transaction. -/
def walletRowOk (w : Wallet) : Bool :=
  decide (0 ≤ w.available) && decide (0 ≤ w.escrow)

/-- `WalletService.refundEscrow` — the code performs no validation: the
`UPDATE` and the `COMPLETED` `REFUND` row are issued unconditionally.  The
database, however, checks `walletRowOk` on every row the `UPDATE` writes
(the rows matching `user_id`, at most one in the real table since `user_id`
is the primary key); if a written row violates a constraint the
`db.transaction` rolls back and the call throws, leaving no state change. -/
def refundEscrow (db : LedgerDB) (userId : String) (amountCents : ℚ)
    (matchId : String) : Except String LedgerDB :=
  let ws₁ := updateWallet db.wallets userId (fun w =>
    { w with available := w.available + amountCents,
             escrow := w.escrow - amountCents,
             version := w.version + 1 })
  if ws₁.all (fun p => p.1 != userId || walletRowOk p.2) then
    .ok { db with
            wallets := ws₁,
            txs := db.txs ++
              [{ id := db.nextId, userId := userId, txType := .refund,
                 amountCents := amountCents, status := .completed,
                 ref := matchId, key := none }],
            nextId := db.nextId + 1 }
  else .error "new row violates wallets check constraint"

/-- The distinguished house account id of `settleMatch`. -/
def houseUserId : String := "00000000-0000-0000-0000-000000000000"

/-- `WalletService.settleMatch`: for each `(userId, payoutCents)` it runs
`UPDATE wallets SET escrow_cents = escrow_cents - totalEscrow / payouts.length,
available_cents = available_cents + payoutCents, ...` and inserts a `PAYOUT`
row, then one `RAKE` row for the house.  `totalEscrow / payouts.length` is
the JavaScript quotient (exact division over `ℚ`). -/
def settleMatch (db : LedgerDB) (matchId : String)
    (payouts : List (String × ℚ)) (rakeCents : ℚ) : LedgerDB :=
  let totalPayout := (payouts.map (·.2)).sum
  let totalEscrow := totalPayout + rakeCents
  let perPlayerRelease := totalEscrow / (payouts.length : ℚ)
  let db₁ := payouts.foldl
    (fun acc p =>
      let ws₁ := updateWallet acc.wallets p.1 (fun w =>
        { w with escrow := w.escrow - perPlayerRelease,
                 available := w.available + p.2,
                 version := w.version + 1 })
      let txs₁ := acc.txs ++
        [{ id := acc.nextId, userId := p.1, txType := .payoutTx,
           amountCents := p.2, status := .completed, ref := matchId,
           key := none }]
      { acc with wallets := ws₁, txs := txs₁, nextId := acc.nextId + 1 })
    db
  { db₁ with
      txs := db₁.txs ++
        [{ id := db₁.nextId, userId := houseUserId, txType := .rakeTx,
           amountCents := rakeCents, status := .completed, ref := matchId,
           key := none }],
      nextId := db₁.nextId + 1 }

/-! ## Lobby join protocol: `LobbyService.joinLobby`
(src/packages/server/src/services/lobby.service.ts)

`joinLobby` runs inside one `db.transaction`, but the escrow lock it performs
calls `walletService.lockEscrow`, which opens its *own* `db.transaction` on a
different pool client — so a successful lock commits immediately and is not
covered by the outer transaction's rollback.  The embedding keeps the two
commit scopes separate: an error result carries the post-state, in which any
*inner* commit that already happened persists while the outer transaction's
writes (the membership `INSERT`) are rolled back. -/

/-- `LobbyState` from `@agar/shared`. -/
inductive LobbyStateE where
  | waiting
  | countdown
  | active
  | suddenShrink
  | settlement
  | lobbyCompleted
deriving DecidableEq, Repr

/-- A `lobbies` row (the columns `joinLobby` reads). -/
structure LobbyRow where
  id : String
  buyInCents : ℚ
  state : LobbyStateE
deriving DecidableEq, Repr

/-- Controller-side persistent state: the ledger plus the lobby tables.
`lobbyPlayers` rows are `(lobby_id, user_id, team_no)`. -/
structure SysState where
  ledger : LedgerDB
  lobbies : List LobbyRow
  lobbyPlayers : List (String × String × ℤ)
deriving DecidableEq, Repr

/-- `LobbyService.getMaxPlayers` — every mode returns 20. -/
def getMaxPlayers : ℕ := 20

/-- `LobbyService.joinLobby`.  `insertFails` injects a database failure at the
membership `INSERT` step (the claim quantifies over a failure of any step).
The returned state is what is durably committed after the call: on an error
the outer transaction's writes are rolled back, but a `lockEscrow` that
already committed in its own transaction is not undone. -/
def joinLobby (st : SysState) (lobbyId userId : String) (teamNo : ℤ)
    (insertFails : Bool) : Except String Unit × SysState :=
  match st.lobbies.find? (fun l => l.id == lobbyId) with
  | none => (.error "Lobby not found", st)
  | some lobby =>
      if lobby.state ≠ .waiting then
        (.error "Lobby is not accepting players", st)
      else if st.lobbyPlayers.any (fun m => m.1 == lobbyId && m.2.1 == userId) then
        (.error "Already in lobby", st)
      else if getMaxPlayers ≤ (st.lobbyPlayers.filter (fun m => m.1 == lobbyId)).length then
        (.error "Lobby is full", st)
      else
        match lockEscrow st.ledger userId lobby.buyInCents lobbyId with
        | .error e => (.error e, st)
        | .ok ledger₁ =>
            let st₁ := { st with ledger := ledger₁ }
            if insertFails then
              (.error "membership insert failed", st₁)
            else
              (.ok (),
               { st₁ with lobbyPlayers := st₁.lobbyPlayers ++ [(lobbyId, userId, teamNo)] })

/-! ## SHA-256 and the provably-fair commitment
(src/unnamed/part_005, `ProvablyFairService`)

`createCommit` calls Node's `createHash('sha256').update(seed + nonce)`; the
hash itself is the FIPS 180-4 SHA-256 function, implemented here over byte
lists (each byte a `ℕ < 256`), with 32-bit words as `ℕ` reduced `% 2³²`.
The implementation is checked below against the standard `"abc"` test
vector. -/

namespace SHA256

/-- `2³²`. -/
def w32 : ℕ := 4294967296

/-- Right rotation of a 32-bit word. -/
def rotr (n x : ℕ) : ℕ := ((x >>> n) ||| (x <<< (32 - n))) % w32

/-- `Σ₀` of FIPS 180-4. -/
def bigSigma0 (x : ℕ) : ℕ := rotr 2 x ^^^ rotr 13 x ^^^ rotr 22 x

/-- `Σ₁` of FIPS 180-4. -/
def bigSigma1 (x : ℕ) : ℕ := rotr 6 x ^^^ rotr 11 x ^^^ rotr 25 x

/-- `σ₀` of FIPS 180-4. -/
def smallSigma0 (x : ℕ) : ℕ := rotr 7 x ^^^ rotr 18 x ^^^ (x >>> 3)

/-- `σ₁` of FIPS 180-4. -/
def smallSigma1 (x : ℕ) : ℕ := rotr 17 x ^^^ rotr 19 x ^^^ (x >>> 10)

/-- `Ch(x,y,z)` (the complement taken within 32 bits). -/
def ch (x y z : ℕ) : ℕ := (x &&& y) ^^^ ((x ^^^ (w32 - 1)) &&& z)

/-- `Maj(x,y,z)`. -/
def maj (x y z : ℕ) : ℕ := (x &&& y) ^^^ (x &&& z) ^^^ (y &&& z)

/-- The 64 round constants `K`. -/
def K : List ℕ :=
  [1116352408, 1899447441, 3049323471, 3921009573,
   961987163, 1508970993, 2453635748, 2870763221,
   3624381080, 310598401, 607225278, 1426881987,
   1925078388, 2162078206, 2614888103, 3248222580,
   3835390401, 4022224774, 264347078, 604807628,
   770255983, 1249150122, 1555081692, 1996064986,
   2554220882, 2821834349, 2952996808, 3210313671,
   3336571891, 3584528711, 113926993, 338241895,
   666307205, 773529912, 1294757372, 1396182291,
   1695183700, 1986661051, 2177026350, 2456956037,
   2730485921, 2820302411, 3259730800, 3345764771,
   3516065817, 3600352804, 4094571909, 275423344,
   430227734, 506948616, 659060556, 883997877,
   958139571, 1322822218, 1537002063, 1747873779,
   1955562222, 2024104815, 2227730452, 2361852424,
   2428436474, 2756734187, 3204031479, 3329325298]

/-- The eight working variables. -/
structure Hash8 where
  a : ℕ
  b : ℕ
  c : ℕ
  d : ℕ
  e : ℕ
  f : ℕ
  g : ℕ
  h : ℕ
deriving DecidableEq, Repr

/-- The initial hash value `H⁽⁰⁾`. -/
def initH : Hash8 :=
  ⟨1779033703, 3144134277, 1013904242, 2773480762,
   1359893119, 2600822924, 528734635, 1541459225⟩

/-- `k` bytes of `n`, big-endian. -/
def natToBytesBE (k n : ℕ) : List ℕ :=
  (List.range k).map (fun i => (n >>> (8 * (k - 1 - i))) % 256)

/-- FIPS padding: append `0x80`, zero bytes to 56 mod 64, then the 8-byte
big-endian bit length. -/
def padMessage (msg : List ℕ) : List ℕ :=
  msg ++ [128] ++ List.replicate ((120 - ((msg.length + 1) % 64)) % 64) 0
      ++ natToBytesBE 8 (msg.length * 8)

/-- Big-endian 4-byte groups into 32-bit words. -/
def bytesToWords : List ℕ → List ℕ
  | a :: b :: c :: d :: rest => (((a * 256 + b) * 256 + c) * 256 + d) :: bytesToWords rest
  | _ => []

/-- The last 48 schedule words, by the sliding recurrence
`W[t] = σ₁(W[t−2]) + W[t−7] + σ₀(W[t−15]) + W[t−16]`, carrying the previous
16 words as arguments. -/
def schedAux : ℕ → ℕ → ℕ → ℕ → ℕ → ℕ → ℕ → ℕ → ℕ → ℕ → ℕ → ℕ → ℕ → ℕ → ℕ → ℕ → ℕ →
    List ℕ
  | 0, _, _, _, _, _, _, _, _, _, _, _, _, _, _, _, _ => []
  | n + 1, w0, w1, w2, w3, w4, w5, w6, w7, w8, w9, w10, w11, w12, w13, w14, w15 =>
      let wNew := (((((w14 >>> 17) ||| (w14 <<< 15)) % 4294967296) ^^^
                    (((w14 >>> 19) ||| (w14 <<< 13)) % 4294967296) ^^^ (w14 >>> 10))
                   + w9
                   + ((((w1 >>> 7) ||| (w1 <<< 25)) % 4294967296) ^^^
                      (((w1 >>> 18) ||| (w1 <<< 14)) % 4294967296) ^^^ (w1 >>> 3))
                   + w0) % 4294967296
      wNew :: schedAux n w1 w2 w3 w4 w5 w6 w7 w8 w9 w10 w11 w12 w13 w14 w15 wNew
termination_by structural n => n

/-- The full 64-word message schedule of a 16-word block. -/
def schedule (block : List ℕ) : List ℕ :=
  match block with
  | [w0, w1, w2, w3, w4, w5, w6, w7, w8, w9, w10, w11, w12, w13, w14, w15] =>
      block ++ schedAux 48 w0 w1 w2 w3 w4 w5 w6 w7 w8 w9 w10 w11 w12 w13 w14 w15
  | _ => []

/-- One compression round (`Σ₁`, `Ch`, `Σ₀`, `Maj` written out as their
FIPS 180-4 rotate/mask formulas, over words kept `< 2³²`). -/
def round (st : Hash8) (ki wi : ℕ) : Hash8 :=
  let t1 := (st.h
      + ((((st.e >>> 6) ||| (st.e <<< 26)) % 4294967296) ^^^
         (((st.e >>> 11) ||| (st.e <<< 21)) % 4294967296) ^^^
         (((st.e >>> 25) ||| (st.e <<< 7)) % 4294967296))
      + ((st.e &&& st.f) ^^^ ((st.e ^^^ 4294967295) &&& st.g))
      + ki + wi) % 4294967296
  let t2 := (((((st.a >>> 2) ||| (st.a <<< 30)) % 4294967296) ^^^
              (((st.a >>> 13) ||| (st.a <<< 19)) % 4294967296) ^^^
              (((st.a >>> 22) ||| (st.a <<< 10)) % 4294967296))
      + ((st.a &&& st.b) ^^^ (st.a &&& st.c) ^^^ (st.b &&& st.c))) % 4294967296
  ⟨(t1 + t2) % 4294967296, st.a, st.b, st.c, (st.d + t1) % 4294967296,
   st.e, st.f, st.g⟩

/-- The 64 rounds, walking the constants and the schedule together. -/
def roundsAux : List ℕ → List ℕ → Hash8 → Hash8
  | k :: ks, w :: ws, st => roundsAux ks ws (round st k w)
  | _, _, st => st

/-- Compress one 16-word block into the running hash. -/
def compressBlock (h : Hash8) (block : List ℕ) : Hash8 :=
  let st := roundsAux K (schedule block) h
  ⟨(h.a + st.a) % w32, (h.b + st.b) % w32, (h.c + st.c) % w32,
   (h.d + st.d) % w32, (h.e + st.e) % w32, (h.f + st.f) % w32,
   (h.g + st.g) % w32, (h.h + st.h) % w32⟩

/-- Split into 16-word blocks (`fuel` bounds the recursion; callers pass the
list length, which suffices). -/
def chunk16 : ℕ → List ℕ → List (List ℕ)
  | 0, _ => []
  | _ + 1, [] => []
  | fuel + 1, ws => ws.take 16 :: chunk16 fuel (ws.drop 16)

/-- SHA-256 digest, as 32 bytes. -/
def sha256 (msg : List ℕ) : List ℕ :=
  let words := bytesToWords (padMessage msg)
  let hFin := (chunk16 words.length words).foldl compressBlock initH
  natToBytesBE 4 hFin.a ++ natToBytesBE 4 hFin.b ++ natToBytesBE 4 hFin.c ++
  natToBytesBE 4 hFin.d ++ natToBytesBE 4 hFin.e ++ natToBytesBE 4 hFin.f ++
  natToBytesBE 4 hFin.g ++ natToBytesBE 4 hFin.h

end SHA256

/-- ASCII code of the lowercase hex digit for `n < 16`. -/
def hexDigitByte (n : ℕ) : ℕ := if n < 10 then 48 + n else 87 + n

/-- `.digest('hex')`: lowercase hex encoding, as the bytes of the hex
string. -/
def bytesToHex (bs : List ℕ) : List ℕ :=
  bs.flatMap (fun b => [hexDigitByte (b / 16), hexDigitByte (b % 16)])

/-- The bytes of a Lean string literal (all strings used here are ASCII). -/
def strBytes (s : String) : List ℕ :=
  s.toList.map Char.toNat

/-- `ProvablyFairService.createCommit`:
`createHash('sha256').update(seed + nonce).digest('hex')` — seed and nonce
given as the byte sequences of the two strings. -/
def createCommit (seed nonce : List ℕ) : List ℕ :=
  bytesToHex (SHA256.sha256 (seed ++ nonce))

/-- `ProvablyFairService.verifyCommitment`: recompute and compare. -/
def verifyCommitment (seed nonce commit : List ℕ) : Bool :=
  createCommit seed nonce == commit

/-- Flip bit `i` (bit `i % 8` of byte `i / 8`) of a byte sequence. -/
def flipBit (bs : List ℕ) (i : ℕ) : List ℕ :=
  bs.set (i / 8) (bs.getD (i / 8) 0 ^^^ (1 <<< (i % 8)))

/-- `seed = "00" * 32`, as bytes: 64 ASCII `'0'` characters. -/
def zeroSeedBytes : List ℕ := List.replicate 64 48

/-- `nonce = "00" * 16`, as bytes: 32 ASCII `'0'` characters. -/
def zeroNonceBytes : List ℕ := List.replicate 32 48

/-! ## Physics engine and match simulation
(src/packages/game-server/src/physics/engine.ts, `PhysicsEngine` and `Match`)

Numeric library calls are collected in `NumOps`; `Date.now()` is passed as
`now`, `Math.random()` as an explicit entropy list, `uuidv4()` as the
counter `nextId`.  JavaScript `Map` iteration is insertion order, so the
player and pellet maps become lists in insertion order. -/

/-- The `Math` library functions the engine calls. -/
structure NumOps where
  sqrt : ℚ → ℚ
  cos : ℚ → ℚ
  sin : ℚ → ℚ
  atan2 : ℚ → ℚ → ℚ
  pi : ℚ

/-- The `Pellet` runtime entity. -/
structure Pellet where
  id : ℕ
  posX : ℚ
  posY : ℚ
  radius : ℚ
  mass : ℚ
  consumed : Bool
deriving DecidableEq, Repr

instance : Inhabited Player :=
  ⟨⟨0, "", 0, 0, 0, 0, 0, 0, 0, 0, 0, false, 0, false, 0⟩⟩

/-- `GAME_CONFIG.INITIAL_PLAYER_MASS`. -/
def initialPlayerMass : ℚ := 10

/-- `GAME_CONFIG.NORMAL_PHASE_MS` (4.5 minutes). -/
def normalPhaseMs : ℤ := 270000

/-- `GAME_CONFIG.MATCH_DURATION_MS` (6 minutes). -/
def matchDurationMs : ℤ := 360000

/-- `GAME_CONFIG.SHRINK_PHASE_MS` (1.5 minutes). -/
def shrinkPhaseMs : ℤ := 90000

/-- `PhysicsEngine.massToRadius` (`MASS_TO_RADIUS_K = 1.0`). -/
def massToRadius (ops : NumOps) (mass : ℚ) : ℚ :=
  1 * ops.sqrt mass

/-- `PhysicsEngine.calculateMaxVelocity` (`MAX_VELOCITY = 5.0`). -/
def calculateMaxVelocity (ops : NumOps) (mass : ℚ) : ℚ :=
  5 / ops.sqrt (mass / initialPlayerMass)

/-- `PhysicsEngine.updatePlayer` (`FRICTION = 0.9`, acceleration `2.0`,
`BOOST_COOLDOWN_MS = 6000`; `Date.now()` passed as `now`). -/
def updatePlayer (ops : NumOps) (p : Player) (deltaTime : ℚ) (now : ℤ) : Player :=
  if p.isDead then p
  else
    let radius := massToRadius ops p.mass
    let maxVel := calculateMaxVelocity ops p.mass
    let vx₀ := (p.velX + p.inputX * 2 * deltaTime) * (9 / 10)
    let vy₀ := (p.velY + p.inputY * 2 * deltaTime) * (9 / 10)
    let speed := ops.sqrt (vx₀ ^ 2 + vy₀ ^ 2)
    let vx₁ := if speed > maxVel then vx₀ / speed * maxVel else vx₀
    let vy₁ := if speed > maxVel then vy₀ / speed * maxVel else vy₀
    let boosted := p.boost && decide (now - p.lastBoostTime ≥ 6000)
    let vx₂ := if boosted then vx₁ * 2 else vx₁
    let vy₂ := if boosted then vy₁ * 2 else vy₁
    { p with
        radius := radius
        velX := vx₂
        velY := vy₂
        boost := false
        lastBoostTime := if boosted then now else p.lastBoostTime
        posX := p.posX + vx₂ * deltaTime
        posY := p.posY + vy₂ * deltaTime }

/-- `PhysicsEngine.checkCollision`. -/
def checkCollision (ops : NumOps) (x₁ y₁ r₁ x₂ y₂ r₂ : ℚ) : Bool :=
  decide (ops.sqrt ((x₂ - x₁) ^ 2 + (y₂ - y₁) ^ 2) < r₁ + r₂)

/-- `PhysicsEngine.eatPlayer`: returns the updated eater, the updated target
and `massGained`. -/
def eatPlayer (ops : NumOps) (eater target : Player) (growthCap : ℚ) :
    Player × Player × ℚ :=
  if !canEat eater target then (eater, target, 0)
  else if !checkCollision ops eater.posX eater.posY eater.radius
          target.posX target.posY target.radius then (eater, target, 0)
  else
    let newMass := min (eater.mass + target.mass) growthCap
    ({ eater with mass := newMass, kills := eater.kills + 1 },
     { target with isDead := true, mass := 0, radius := 0 },
     newMass - eater.mass)

/-- `PhysicsEngine.eatPellet` (`PELLET_MASS = 1`): returns the updated
player, the updated pellet and whether it was consumed. -/
def eatPellet (ops : NumOps) (p : Player) (pel : Pellet) (growthCap : ℚ) :
    Player × Pellet × Bool :=
  if p.isDead || pel.consumed then (p, pel, false)
  else if checkCollision ops p.posX p.posY p.radius pel.posX pel.posY pel.radius then
    ({ p with mass := min (p.mass + 1) growthCap },
     { pel with consumed := true }, true)
  else (p, pel, false)

/-- `PhysicsEngine.applyFogDamage` (5 mass per second). -/
def applyFogDamage (ops : NumOps) (p : Player) (fogRadius deltaTime : ℚ) : Player :=
  if p.isDead then p
  else
    let distance := ops.sqrt (p.posX ^ 2 + p.posY ^ 2)
    if distance > fogRadius then
      let newMass := max 0 (p.mass - 5 * deltaTime)
      { p with mass := newMass, isDead := if newMass ≤ 0 then true else p.isDead }
    else p

/-- `PhysicsEngine.constrainToMap`. -/
def constrainToMap (ops : NumOps) (p : Player) (mapRadius : ℚ) : Player :=
  let distance := ops.sqrt (p.posX ^ 2 + p.posY ^ 2)
  if distance > mapRadius then
    let angle := ops.atan2 p.posY p.posX
    { p with
        posX := ops.cos angle * mapRadius
        posY := ops.sin angle * mapRadius
        velX := p.velX * (-(1 / 2))
        velY := p.velY * (-(1 / 2)) }
  else p

/-! ### The seeded RNG of `Match` -/

/-- Wrap an integer to a signed 32-bit value (JavaScript `| 0`). -/
def wrap32 (z : ℤ) : ℤ :=
  (z + 2147483648) % 4294967296 - 2147483648

/-- One step of `Match.seedToNumber`'s loop:
`hash = (hash << 5) - hash + seed.charCodeAt(i); hash |= 0` (the `<< 5`
itself operates on 32 bits). -/
def jsHashStep (h : ℤ) (c : ℕ) : ℤ :=
  wrap32 (wrap32 (h * 32) - h + c)

/-- `Match.seedToNumber`: the string-hash loop followed by `Math.abs`. -/
def seedToNumber (seed : String) : ℕ :=
  (seed.toList.foldl (fun h ch => jsHashStep h ch.toNat) 0).natAbs

/-- One step of the LCG in `Match.createSeededRNG`:
`state = (state * 1664525 + 1013904223) % 4294967296`. -/
def lcgNext (s : ℕ) : ℕ :=
  (s * 1664525 + 1013904223) % 4294967296

/-- One draw of the seeded RNG: the stepped state and `state / 2³²`.
(All quantities are exact: the product fits well below `2⁵³`, so the
JavaScript evaluation is exact as well.) -/
def rngNext (s : ℕ) : ℚ × ℕ :=
  let s₁ := lcgNext s
  ((s₁ : ℚ) / 4294967296, s₁)

/-- `Match.randomPointInCircle`: `angle = rng() * Math.PI * 2`,
`r = Math.sqrt(rng()) * radius`. -/
def randomPointInCircle (ops : NumOps) (s : ℕ) (radius : ℚ) : (ℚ × ℚ) × ℕ :=
  let (u, s₁) := rngNext s
  let (v, s₂) := rngNext s₁
  let angle := u * ops.pi * 2
  let r := ops.sqrt v * radius
  ((ops.cos angle * r, ops.sin angle * r), s₂)

/-! ### `Match` state and tick -/

/-- The slice of `MatchConfig` the simulation reads. -/
structure MatchCfg where
  seed : String
  buyInCents : ℚ
  mapRadius : ℚ
  members : List (String × ℤ)
deriving Repr

/-- `Match`'s mutable runtime state. -/
structure MatchState where
  state : LobbyStateE
  tick : ℕ
  startTime : ℤ
  countdownStartTime : ℤ
  players : List Player
  pellets : List Pellet
  fogRadius : ℚ
  growthCap : ℚ
  nextId : ℕ
deriving Repr

/-- `Match.spawnPellet` with an explicit RNG state. -/
def spawnPellet (ops : NumOps) (cfg : MatchCfg) (st : MatchState) (s : ℕ) :
    MatchState × ℕ :=
  let (pos, s₁) := randomPointInCircle ops s cfg.mapRadius
  let pellet : Pellet :=
    { id := st.nextId, posX := pos.1, posY := pos.2,
      radius := massToRadius ops 1, mass := 1, consumed := false }
  ({ st with pellets := st.pellets ++ [pellet], nextId := st.nextId + 1 }, s₁)

/-- `Match.initializePlayers`: spawn each member uniformly in the disk of
radius `0.7 * mapRadius`, mass 10, velocity zero. -/
def initializePlayers (ops : NumOps) (cfg : MatchCfg) (st : MatchState) : MatchState :=
  let s₀ := seedToNumber cfg.seed
  (cfg.members.foldl
    (fun (acc : MatchState × ℕ) m =>
      let (st, s) := acc
      let (pos, s₁) := randomPointInCircle ops s (cfg.mapRadius * (7 / 10))
      let p : Player :=
        { id := st.nextId, userId := m.1, teamNo := m.2,
          posX := pos.1, posY := pos.2,
          radius := massToRadius ops initialPlayerMass,
          mass := initialPlayerMass,
          velX := 0, velY := 0, inputX := 0, inputY := 0,
          boost := false, lastBoostTime := 0, isDead := false, kills := 0 }
      ({ st with players := st.players ++ [p], nextId := st.nextId + 1 }, s₁))
    (st, s₀)).1

/-- `Match.initializePellets`: 500 pellets from a fresh RNG seeded from the
same seed. -/
def initializePellets (ops : NumOps) (cfg : MatchCfg) (st : MatchState) : MatchState :=
  let s₀ := seedToNumber cfg.seed
  ((List.range 500).foldl
    (fun (acc : MatchState × ℕ) _ => spawnPellet ops cfg acc.1 acc.2)
    (st, s₀)).1

/-- The `Match` constructor (`state = COUNTDOWN`,
`growthCap = buyInCents * GROWTH_CAP_MULTIPLIER`, players then pellets). -/
def matchInit (ops : NumOps) (cfg : MatchCfg) : MatchState :=
  let st : MatchState :=
    { state := .countdown, tick := 0, startTime := 0, countdownStartTime := 0,
      players := [], pellets := [], fogRadius := cfg.mapRadius,
      growthCap := cfg.buyInCents * 5, nextId := 0 }
  initializePellets ops cfg (initializePlayers ops cfg st)

/-- `Match.startCountdown` (`Date.now()` passed as `now`). -/
def startCountdown (st : MatchState) (now : ℤ) : MatchState :=
  { st with state := .countdown, countdownStartTime := now }

/-- Step 4 of `Match.update`: motion, map constraint and — during shrink —
fog damage, for every player. -/
def updateAllPlayers (ops : NumOps) (cfg : MatchCfg) (st : MatchState)
    (deltaTime : ℚ) (now : ℤ) : MatchState :=
  { st with
      players := st.players.map (fun p =>
        let p₁ := updatePlayer ops p deltaTime now
        let p₂ := constrainToMap ops p₁ cfg.mapRadius
        if st.state = .suddenShrink then applyFogDamage ops p₂ st.fogRadius deltaTime
        else p₂) }

/-- The ordered index pairs `(i, j)`, `i < j`, of the double loop over
`playerArray`. -/
def allPairs (n : ℕ) : List (ℕ × ℕ) :=
  (List.range n).flatMap (fun i =>
    (List.range n).filterMap (fun j => if i < j then some (i, j) else none))

/-- One iteration of the collision double loop at indices `(i, j)`, on the
live player objects. -/
def pairStep (ops : NumOps) (growthCap : ℚ) (players : List Player)
    (ij : ℕ × ℕ) : List Player :=
  let p₁ := players.getD ij.1 default
  let p₂ := players.getD ij.2 default
  if canEat p₁ p₂ then
    let r := eatPlayer ops p₁ p₂ growthCap
    (players.set ij.1 r.1).set ij.2 r.2.1
  else if canEat p₂ p₁ then
    let r := eatPlayer ops p₂ p₁ growthCap
    (players.set ij.2 r.1).set ij.1 r.2.1
  else players

/-- Step 5 of `Match.update`: the player–player collision loop. -/
def collisionPhase (ops : NumOps) (st : MatchState) : MatchState :=
  { st with
      players := (allPairs st.players.length).foldl
        (pairStep ops st.growthCap) st.players }

/-- The inner pellet loop for one player (`for (const pellet of
this.pellets.values())`): consumed pellets are deleted from the map, the
others are kept, the player's mass accumulates. -/
def eatLoop (ops : NumOps) (growthCap : ℚ) :
    Player → List Pellet → List Pellet → Player × List Pellet
  | q, kept, [] => (q, kept)
  | q, kept, pel :: rest =>
      let r := eatPellet ops q pel growthCap
      if r.2.2 then eatLoop ops growthCap r.1 kept rest
      else eatLoop ops growthCap r.1 (kept ++ [r.2.1]) rest

/-- The inner pellet loop, started on the live player and an empty kept
list. -/
def eatPelletsForPlayer (ops : NumOps) (growthCap : ℚ) (p : Player)
    (pellets : List Pellet) : Player × List Pellet :=
  eatLoop ops growthCap p [] pellets

/-- Step 6 of `Match.update`: the player–pellet loop, players in map
order. -/
def pelletPhase (ops : NumOps) (st : MatchState) : MatchState :=
  let r := st.players.foldl
    (fun (acc : List Player × List Pellet) p =>
      let pr := eatPelletsForPlayer ops st.growthCap p acc.2
      (acc.1 ++ [pr.1], pr.2))
    ([], st.pellets)
  { st with players := r.1, pellets := r.2 }

/-- Whether `eatPellet` would consume `pel`: the player is alive, the pellet
unconsumed, and the circles overlap.  This only reads fields `eatPellet`
never writes, which is what makes the loop hoistable. -/
def pelletEaten (ops : NumOps) (q : Player) (pel : Pellet) : Bool :=
  !q.isDead && !pel.consumed &&
    checkCollision ops q.posX q.posY q.radius pel.posX pel.posY pel.radius

/-- Loop-invariant-hoisted form of the pellet loop: the consumption test of
every pellet depends only on the player fields `eatPellet` never changes, so
the kept list is a `filter` and the mass a fold over the eaten pellets.
Used only to evaluate concrete traces shallowly; `eatLoop_eq_fast` proves it
equal to the transcribed loop. -/
def eatFast (ops : NumOps) (cap : ℚ) (q : Player) (pellets : List Pellet) :
    Player × List Pellet :=
  ({ q with mass := (pellets.foldl
        (fun m pel => if pelletEaten ops q pel then min (m + 1) cap else m) q.mass) },
   pellets.filter (fun pel => !pelletEaten ops q pel))

/-- The transcribed pellet loop equals its hoisted form. -/
lemma eatLoop_eq_fast (ops : NumOps) (cap : ℚ) :
    ∀ (pellets : List Pellet) (q : Player) (kept : List Pellet),
      eatLoop ops cap q kept pellets =
        ((eatFast ops cap q pellets).1, kept ++ (eatFast ops cap q pellets).2)
  | [], q, kept => by simp [eatLoop, eatFast]
  | pel :: rest, q, kept => by
      by_cases hdc : q.isDead = true ∨ pel.consumed = true
      · have hpe : pelletEaten ops q pel = false := by
          rcases hdc with h | h <;> simp [pelletEaten, h]
        have hor : (q.isDead || pel.consumed) = true := by
          rcases hdc with h | h <;> simp [h]
        simp only [eatLoop, eatPellet, hor, if_true, eatFast, List.foldl_cons,
          List.filter_cons, hpe, Bool.not_false, if_false, Bool.false_eq_true,
          eatLoop_eq_fast ops cap rest q (kept ++ [pel])]
        simp [eatFast, List.append_assoc]
      · have hd : q.isDead = false := by
          cases h : q.isDead <;> simp_all
        have hc : pel.consumed = false := by
          cases h : pel.consumed <;> simp_all
        have hor : (q.isDead || pel.consumed) = false := by simp [hd, hc]
        by_cases hcol : checkCollision ops q.posX q.posY q.radius
            pel.posX pel.posY pel.radius = true
        · have hpe : pelletEaten ops q pel = true := by
            simp [pelletEaten, hd, hc, hcol]
          have hstat : pelletEaten ops { q with mass := min (q.mass + 1) cap } =
              pelletEaten ops q := rfl
          simp only [eatLoop, eatPellet, hor, hcol, if_true, if_false,
            Bool.false_eq_true,
            eatLoop_eq_fast ops cap rest { q with mass := min (q.mass + 1) cap } kept]
          simp [eatFast, hstat, hpe, List.foldl_cons, List.filter_cons]
        · have hcolf : checkCollision ops q.posX q.posY q.radius
              pel.posX pel.posY pel.radius = false := by
            cases h : checkCollision ops q.posX q.posY q.radius
                pel.posX pel.posY pel.radius <;> simp_all
          have hpe : pelletEaten ops q pel = false := by
            simp [pelletEaten, hcolf]
          simp only [eatLoop, eatPellet, hor, hcolf, if_false, Bool.false_eq_true,
            eatLoop_eq_fast ops cap rest q (kept ++ [pel])]
          simp [eatFast, hpe, List.foldl_cons, List.filter_cons, List.append_assoc]

/-- The per-player loop equals its hoisted form. -/
lemma eatPelletsForPlayer_eq_fast (ops : NumOps) (cap : ℚ) (p : Player)
    (pellets : List Pellet) :
    eatPelletsForPlayer ops cap p pellets = eatFast ops cap p pellets := by
  simp [eatPelletsForPlayer, eatLoop_eq_fast ops cap pellets p []]

/-- Pop the next `Math.random()` value (0 when the supplied stream is
exhausted; every trace below supplies enough). -/
def takeEntropy : List ℚ → ℚ × List ℚ
  | [] => (0, [])
  | x :: xs => (x, xs)

/-- Step 7 of `Match.update`, verbatim from the source:
`if (state === ACTIVE || Math.random() > 0.5)` then
`if (pellets.size < 500 && Math.random() < 0.1)` spawn one pellet from a
*fresh* seeded RNG (`const rng = this.createSeededRNG()`).  `||` and `&&`
short-circuit, so `Math.random()` is consulted only when reached. -/
def respawnPhase (ops : NumOps) (cfg : MatchCfg) (st : MatchState)
    (entropy : List ℚ) : MatchState × List ℚ :=
  let gate :=
    if st.state = .active then (true, entropy)
    else
      let e := takeEntropy entropy
      (decide (e.1 > 1 / 2), e.2)
  if gate.1 then
    if st.pellets.length < 500 then
      let e₂ := takeEntropy gate.2
      if e₂.1 < 1 / 10 then
        ((spawnPellet ops cfg st (seedToNumber cfg.seed)).1, e₂.2)
      else (st, e₂.2)
    else (st, gate.2)
  else (st, gate.2)

/-- `Match.update` (`Date.now()` passed as `now`, `Math.random()` drawn from
`entropy`; the returned list is the rest of the stream). -/
def matchUpdate (ops : NumOps) (cfg : MatchCfg) (st : MatchState) (now : ℤ)
    (entropy : List ℚ) : MatchState × List ℚ :=
  let st := { st with tick := st.tick + 1 }
  let deltaTime : ℚ := 1 / 30
  if st.state = .countdown then
    (if now - st.countdownStartTime ≥ 10000 then
       { st with state := .active, startTime := now }
     else st, entropy)
  else
    let st₁ :=
      if st.state = .active ∧ now - st.startTime ≥ normalPhaseMs then
        { st with state := .suddenShrink }
      else st
    if st₁.state = .suddenShrink ∧ now - st₁.startTime ≥ matchDurationMs then
      ({ st₁ with state := .settlement }, entropy)
    else
      let st₂ :=
        if st₁.state = .suddenShrink then
          { st₁ with
              fogRadius := cfg.mapRadius *
                (1 - ((now - st₁.startTime - normalPhaseMs : ℤ) : ℚ) / 90000 * (65 / 100)) }
        else st₁
      let st₃ := updateAllPlayers ops cfg st₂ deltaTime now
      let st₄ := collisionPhase ops st₃
      let st₅ := pelletPhase ops st₄
      respawnPhase ops cfg st₅ entropy

/-! ### A computable instantiation of the numeric operations

Rational stand-ins for the IEEE-754 `Math` functions, used to evaluate
concrete traces.  They agree with the floating-point functions on the
properties those traces depend on: `sqrt 0 = 0`, `sqrt 1 = 1`,
`sqrt q > 0` for `q > 0`, `sqrt q ≥ 0`, and any finite value multiplied by
a zero radius gives exactly 0 (so positions spawned into a disk of radius 0
are `(0, 0)` under the real functions as well). -/

/-- Integer Newton iteration for the floor square root (`fuel` bounds the
recursion so it reduces by iota; 128 steps cover every input here). -/
def isqrtGo : ℕ → ℕ → ℕ → ℕ
  | 0, _, g => g
  | fuel + 1, n, g =>
      let g' := (g + n / g) / 2
      if g' < g then isqrtGo fuel n g' else g

/-- Floor square root on `ℕ` (kernel-reducible). -/
def isqrt (n : ℕ) : ℕ :=
  if n ≤ 1 then n else isqrtGo 128 n (n / 2 + 1)

/-- Rational square-root stand-in: `⌊√(num·den)⌋ / den`; exact on 0, 1 and
all perfect squares, positive on positives, 0 on negatives (never consulted
on a negative input in the traces below). -/
def ratSqrt (q : ℚ) : ℚ :=
  (isqrt (q.num.toNat * q.den) : ℚ) / (q.den : ℚ)

/-- Truncated cosine series stand-in. -/
def ratCos (x : ℚ) : ℚ := 1 - x ^ 2 / 2 + x ^ 4 / 24

/-- Truncated sine series stand-in. -/
def ratSin (x : ℚ) : ℚ := x - x ^ 3 / 6

/-- `atan2` stand-in (consulted only when a position leaves the map, which
never happens in the traces below). -/
def ratAtan2 (_y _x : ℚ) : ℚ := 0

/-- The concrete numeric operations. -/
def ratOps : NumOps :=
  ⟨ratSqrt, ratCos, ratSin, ratAtan2, 355 / 113⟩

/-- `pelletPhase` with the hoisted pellet loop (equal by
`pelletPhase_eq_fast`; exists so concrete traces evaluate without the deep
accumulator chains of the transcribed loop). -/
def pelletPhaseFast (ops : NumOps) (st : MatchState) : MatchState :=
  let r := st.players.foldl
    (fun (acc : List Player × List Pellet) p =>
      let pr := eatFast ops st.growthCap p acc.2
      (acc.1 ++ [pr.1], pr.2))
    ([], st.pellets)
  { st with players := r.1, pellets := r.2 }

/-- The pellet phase equals its hoisted form. -/
lemma pelletPhase_eq_fast (ops : NumOps) (st : MatchState) :
    pelletPhase ops st = pelletPhaseFast ops st := by
  simp only [pelletPhase, pelletPhaseFast, eatPelletsForPlayer_eq_fast]

/-- `Match.update` with the hoisted pellet loop. -/
def matchUpdateFast (ops : NumOps) (cfg : MatchCfg) (st : MatchState) (now : ℤ)
    (entropy : List ℚ) : MatchState × List ℚ :=
  let st := { st with tick := st.tick + 1 }
  let deltaTime : ℚ := 1 / 30
  if st.state = .countdown then
    (if now - st.countdownStartTime ≥ 10000 then
       { st with state := .active, startTime := now }
     else st, entropy)
  else
    let st₁ :=
      if st.state = .active ∧ now - st.startTime ≥ normalPhaseMs then
        { st with state := .suddenShrink }
      else st
    if st₁.state = .suddenShrink ∧ now - st₁.startTime ≥ matchDurationMs then
      ({ st₁ with state := .settlement }, entropy)
    else
      let st₂ :=
        if st₁.state = .suddenShrink then
          { st₁ with
              fogRadius := cfg.mapRadius *
                (1 - ((now - st₁.startTime - normalPhaseMs : ℤ) : ℚ) / 90000 * (65 / 100)) }
        else st₁
      let st₃ := updateAllPlayers ops cfg st₂ deltaTime now
      let st₄ := collisionPhase ops st₃
      let st₅ := pelletPhaseFast ops st₄
      respawnPhase ops cfg st₅ entropy

/-- `Match.update` equals its hoisted form. -/
lemma matchUpdate_eq_fast (ops : NumOps) (cfg : MatchCfg) (st : MatchState)
    (now : ℤ) (entropy : List ℚ) :
    matchUpdate ops cfg st now entropy = matchUpdateFast ops cfg st now entropy := by
  simp only [matchUpdate, matchUpdateFast, pelletPhase_eq_fast]

/-- One full simulation run for the determinism claim: construct the match,
start the countdown at `now = 0`, tick once at `now = 10000` (entering
`ACTIVE`) and once at `now = 10001`, then read off the pellet positions.
`(seed, member_ids, map_radius)` come from `cfg`; `entropy` is the ambient
`Math.random()` stream of this run. -/
def runPelletPositions (ops : NumOps) (cfg : MatchCfg) (entropy : List ℚ) :
    List (ℚ × ℚ) :=
  let st₀ := startCountdown (matchInit ops cfg) 0
  let r₁ := matchUpdate ops cfg st₀ 10000 entropy
  let r₂ := matchUpdate ops cfg r₁.1 10001 r₁.2
  r₂.1.pellets.map (fun p => (p.posX, p.posY))

/-- `runPelletPositions` through the hoisted tick. -/
def runPelletPositionsFast (ops : NumOps) (cfg : MatchCfg) (entropy : List ℚ) :
    List (ℚ × ℚ) :=
  let st₀ := startCountdown (matchInit ops cfg) 0
  let r₁ := matchUpdateFast ops cfg st₀ 10000 entropy
  let r₂ := matchUpdateFast ops cfg r₁.1 10001 r₁.2
  r₂.1.pellets.map (fun p => (p.posX, p.posY))

/-- The run equals its hoisted form. -/
lemma runPelletPositions_eq_fast (ops : NumOps) (cfg : MatchCfg)
    (entropy : List ℚ) :
    runPelletPositions ops cfg entropy = runPelletPositionsFast ops cfg entropy := by
  simp only [runPelletPositions, runPelletPositionsFast, matchUpdate_eq_fast]

/-- The spawn positions of the same run (read after construction). -/
def runSpawnPositions (ops : NumOps) (cfg : MatchCfg) : List (ℚ × ℚ) :=
  (matchInit ops cfg).players.map (fun p => (p.posX, p.posY))

/-- The concrete configuration of the determinism counterexample: one
member, map radius 0 (a legal value, which pins every position at the
origin so the trace is independent of the transcendental stand-ins). -/
def detCfg : MatchCfg :=
  { seed := "a", buyInCents := 1000, mapRadius := 0, members := [("u", 0)] }

/-! ## Shared proof helpers -/

/-- Turn an evaluated `List.all` over `List.range` into a bounded `∀`. -/
lemma ballLT_of_all {n : ℕ} {p : ℕ → Bool}
    (h : (List.range n).all p = true) : ∀ i, i < n → p i = true :=
  fun i hi => List.all_eq_true.mp h i (List.mem_range.mpr hi)

/-- Reading back the wallet a ledger `UPDATE` touched. -/
lemma lookupWallet_updateWallet (ws : List (String × Wallet)) (u : String)
    (f : Wallet → Wallet) :
    lookupWallet (updateWallet ws u f) u = (lookupWallet ws u).map f := by
  induction ws with
  | nil => rfl
  | cons hd tl ih =>
      cases h : hd.1 == u <;>
        simp [lookupWallet, updateWallet, List.find?, h] <;>
        simpa [lookupWallet, updateWallet] using ih

/-- When the row the `UPDATE` touches passes `q` and — mirroring the
`user_id` primary key — the wallet keys are distinct, the per-written-row
check over the updated table passes. -/
lemma all_updateWallet_true_of_nodup (ws : List (String × Wallet))
    (u : String) (f : Wallet → Wallet) (q : Wallet → Bool) (w : Wallet)
    (hnd : (ws.map Prod.fst).Nodup)
    (hw : lookupWallet ws u = some w) (hq : q (f w) = true) :
    (updateWallet ws u f).all (fun p => p.1 != u || q p.2) = true := by
  induction ws with
  | nil => simp [lookupWallet] at hw
  | cons hd tl ih =>
      obtain ⟨k, wv⟩ := hd
      rw [List.map_cons, List.nodup_cons] at hnd
      obtain ⟨hkmem, hnd'⟩ := hnd
      by_cases hk : k = u
      · have hw' : wv = w := by
          simpa [lookupWallet, List.find?_cons, hk] using hw
        subst hw'
        rw [List.all_eq_true]
        intro x hx
        rw [updateWallet, List.map_cons] at hx
        rcases List.mem_cons.mp hx with hx | hx
        · subst hx
          simp [hk, hq]
        · obtain ⟨y, hy, rfl⟩ := List.mem_map.mp hx
          have hne : y.1 ≠ u := by
            intro he
            apply hkmem
            rw [hk, ← he]
            exact List.mem_map.mpr ⟨y, hy, rfl⟩
          simp [hne]
      · have hw' : lookupWallet tl u = some w := by
          simpa [lookupWallet, List.find?_cons, hk] using hw
        have htl := ih hnd' hw'
        rw [updateWallet] at htl
        rw [List.all_eq_true]
        intro x hx
        rw [updateWallet, List.map_cons] at hx
        rcases List.mem_cons.mp hx with hx | hx
        · subst hx
          simp [hk]
        · exact List.all_eq_true.mp htl x hx

/-- When the row the `UPDATE` touches fails `q`, the per-written-row check
over the updated table fails (no key-uniqueness needed: the violating row
is the one `find?` locates). -/
lemma all_updateWallet_false_of_found (ws : List (String × Wallet))
    (u : String) (f : Wallet → Wallet) (q : Wallet → Bool) (w : Wallet)
    (hw : lookupWallet ws u = some w) (hq : q (f w) = false) :
    (updateWallet ws u f).all (fun p => p.1 != u || q p.2) = false := by
  induction ws with
  | nil => simp [lookupWallet] at hw
  | cons hd tl ih =>
      obtain ⟨k, wv⟩ := hd
      by_cases hk : k = u
      · subst hk
        have hw' : wv = w := by
          simpa [lookupWallet, List.find?_cons] using hw
        subst hw'
        simp [updateWallet, List.all_cons, hq]
      · have hw' : lookupWallet tl u = some w := by
          simpa [lookupWallet, List.find?_cons, hk] using hw
        have htl := ih hw'
        rw [updateWallet] at htl
        rw [updateWallet, List.map_cons, List.all_cons, htl, Bool.and_false]

/-- `find?` over an appended row, when the prefix has no match. -/
lemma find?_append_of_none {α : Type} (p : α → Bool) (l : List α) (x : α)
    (h : l.find? p = none) :
    (l ++ [x]).find? p = if p x then some x else none := by
  induction l with
  | nil => cases hx : p x <;> simp [List.find?, hx]
  | cons hd tl ih =>
      rw [List.find?_cons] at h
      cases hp : p hd
      · rw [hp] at h
        rw [List.cons_append, List.find?_cons, hp]
        exact ih h
      · rw [hp] at h
        exact absurd h (by simp)

/-- Completing the just-inserted row touches no other row when its id is
fresh (uuid uniqueness, carried by the `nextId` counter model). -/
lemma setTxStatus_append_fresh (txs : List TxRow) (row : TxRow) (s : TxStatus)
    (hfresh : ∀ r ∈ txs, r.id ≠ row.id) :
    setTxStatus (txs ++ [row]) row.id s = txs ++ [{ row with status := s }] := by
  unfold setTxStatus
  rw [List.map_append]
  have h1 : txs.map (fun r => if r.id == row.id then { r with status := s } else r) =
      txs.map id := by
    apply List.map_congr_left
    intro r hr
    have hne : (r.id == row.id) = false := by simpa using hfresh r hr
    simp [hne]
  rw [h1, List.map_id]
  simp

/-! ## Claim theorems -/

/-- The concrete settlement of claim C1: top-3 ladder, 3 players of
10¢ buy-in, 800 bps rake capped at 100¢ — pot 30, rake 2, net pot 28. -/
def c1Cfg : SettleCfg := ⟨10, 800, 100, .top3Ladder, 3⟩

/-- The final masses of claim C1's match, in join order. -/
def c1Masses : List (String × ℚ) := [("a", 5), ("b", 7), ("c", 3)]

/-- C1: **refuted on the source** — `Match.calculateResults` floors each
ladder share and never adds the rounding residue back to rank 1, so
`Σ payouts + rake` falls short of the pot: with pot 30, rake 2, net pot 28
the ladder pays 18 + 7 + 2 = 27 and 27 + 2 = 29 ≠ 30. -/
theorem C1_residue_never_added :
    payoutSum (calculateResults c1Cfg c1Masses) + rakeOf c1Cfg ≠ potOf c1Cfg ∧
    (calculateResults c1Cfg c1Masses).map (·.payoutCents) = [18, 7, 2] ∧
    payoutSum (calculateResults c1Cfg c1Masses) + rakeOf c1Cfg = 29 ∧
    potOf c1Cfg = 30 := by
  refine ⟨by decide, by decide, by decide, by decide⟩

/-- The concrete settlement of claim C6: proportional, 2 players of 1000¢
buy-in, 800 bps rake (pot 2000, rake 160, net pot 1840), both final masses
zero. -/
def c6Cfg : SettleCfg := ⟨1000, 800, 100000, .proportional, 2⟩

/-- The all-zero final masses of claim C6's match. -/
def c6Masses : List (String × ℚ) := [("a", 0), ("b", 0)]

/-- C6: **refuted on the source** — with every final mass zero the
proportional branch's ternary (`totalMass > 0 ? … : 0`) pays every player 0
instead of the equal split 920/920 of the net pot 1840 the spec mandates. -/
theorem C6_zero_mass_pays_nothing :
    (calculateResults c6Cfg c6Masses).map (·.payoutCents) = [0, 0] ∧
    (calculateResults c6Cfg c6Masses).map (·.payoutCents) ≠ [920, 920] ∧
    netPotOf c6Cfg = 1840 := by
  refine ⟨by decide, by decide, by decide⟩

/-- The ledger of claim C2's settlement: two members who each locked a
1000¢ buy-in in escrow. -/
def c2Db : LedgerDB :=
  { wallets := [("a", ⟨0, 1000, 0⟩), ("b", ⟨0, 1000, 0⟩)],
    profiles := [], txs := [], nextId := 0 }

/-- C2: **refuted on the source** — `WalletService.settleMatch` decrements
each player's escrow by `totalEscrow / payouts.length`
(= `(Σ payouts + rake) / n`), not by that player's own buy-in: settling
payouts 500/100 with rake 0 releases 300 from each escrow of 1000, leaving
700 locked, instead of releasing the full 1000 buy-in. -/
theorem C2_settle_uses_divisor_not_buyin :
    lookupWallet (settleMatch c2Db "m" [("a", 500), ("b", 100)] 0).wallets "a" =
      some ⟨500, 700, 1⟩ ∧
    lookupWallet (settleMatch c2Db "m" [("a", 500), ("b", 100)] 0).wallets "b" =
      some ⟨100, 700, 1⟩ ∧
    ((settleMatch c2Db "m" [("a", 500), ("b", 100)] 0).txs.map
        (fun r => (r.txType, r.amountCents))) =
      [(.payoutTx, 500), (.payoutTx, 100), (.rakeTx, 0)] := by
  refine ⟨by decide, by decide, by decide⟩

/-- The controller state of claim C5's join: lobby `L` waiting with buy-in
1000¢, player `u` with 1000¢ available and nothing in escrow. -/
def c5St : SysState :=
  { ledger := { wallets := [("u", ⟨1000, 0, 0⟩)], profiles := [], txs := [],
                nextId := 0 },
    lobbies := [⟨"L", 1000, .waiting⟩],
    lobbyPlayers := [] }

/-- C5: **refuted on the source** — `lockEscrow` commits in its own
`db.transaction`, so when the membership `INSERT` then fails, the outer
rollback cannot undo it: the wallet ends at available 0 / escrow 1000 with
a committed `ESCROW_LOCK` row, while no membership row exists. -/
theorem C5_escrow_survives_failed_join :
    (joinLobby c5St "L" "u" 0 true).1 = .error "membership insert failed" ∧
    lookupWallet (joinLobby c5St "L" "u" 0 true).2.ledger.wallets "u" =
      some ⟨0, 1000, 1⟩ ∧
    ((joinLobby c5St "L" "u" 0 true).2.ledger.txs.map
        (fun r => (r.txType, r.status, r.amountCents))) =
      [(.escrowLock, .completed, 1000)] ∧
    (joinLobby c5St "L" "u" 0 true).2.lobbyPlayers = [] := by
  refine ⟨by decide, by decide, by decide, by decide⟩

/-- C9: `canEat` returns true only above the strict 1.15 radius ratio
(`collisionSizeRatio = 23/20`), is false at the exact ratio, and is false
for a shared non-zero team or a dead participant. -/
theorem C9_canEat_strict :
    ∀ eater target : Player,
      (canEat eater target = true →
        eater.radius > target.radius * collisionSizeRatio)
    ∧ (eater.radius = target.radius * collisionSizeRatio →
        canEat eater target = false)
    ∧ (0 < eater.teamNo → eater.teamNo = target.teamNo →
        canEat eater target = false)
    ∧ (eater.isDead = true → canEat eater target = false)
    ∧ (target.isDead = true → canEat eater target = false) := by
  intro e t
  refine ⟨?_, ?_, ?_, ?_, ?_⟩
  · intro h
    unfold canEat at h
    split_ifs at h
    exact of_decide_eq_true h
  · intro heq
    unfold canEat
    split_ifs with h1 h2
    · rfl
    · rfl
    · rw [heq]
      simp
  · intro h1 h2
    unfold canEat
    split_ifs with hd ht
    · rfl
    · rfl
    · exact absurd (by simp [h1, ← h2] : (decide (e.teamNo > 0) &&
        (e.teamNo == t.teamNo)) = true) (by simpa using ht)
  · intro h
    unfold canEat
    split_ifs with hd ht
    · rfl
    · exact absurd (by simp [h]) (show ¬(e.isDead || t.isDead) = true from hd)
    · exact absurd (by simp [h]) (show ¬(e.isDead || t.isDead) = true from hd)
  · intro h
    unfold canEat
    split_ifs with hd ht
    · rfl
    · exact absurd (by simp [h]) (show ¬(e.isDead || t.isDead) = true from hd)
    · exact absurd (by simp [h]) (show ¬(e.isDead || t.isDead) = true from hd)

/-- A live 20-radius cell on team 0. -/
def c9Target : Player := ⟨1, "t", 0, 0, 0, 20, 400, 0, 0, 0, 0, false, 0, false, 0⟩

/-- A live cell at radius exactly `20 × 1.15 = 23`. -/
def c9AtRatio : Player := ⟨2, "e", 0, 0, 0, 23, 529, 0, 0, 0, 0, false, 0, false, 0⟩

/-- A live cell above the ratio, radius 24. -/
def c9Above : Player := ⟨3, "f", 0, 0, 0, 24, 576, 0, 0, 0, 0, false, 0, false, 0⟩

/-- A live teammate pair on team 4. -/
def c9TeamA : Player := ⟨4, "g", 4, 0, 0, 50, 2500, 0, 0, 0, 0, false, 0, false, 0⟩

/-- The smaller teammate. -/
def c9TeamB : Player := ⟨5, "h", 4, 0, 0, 1, 1, 0, 0, 0, 0, false, 0, false, 0⟩

/-- A dead cell. -/
def c9Dead : Player := ⟨6, "i", 0, 0, 0, 100, 10000, 0, 0, 0, 0, false, 0, true, 0⟩

/-- Witness for C9 at concrete cells: the exact-ratio cell cannot eat, the
above-ratio cell's success implies the strict inequality, teammates cannot
eat each other, and a dead cell cannot eat. -/
theorem C9_canEat_strict_witness :
    canEat c9AtRatio c9Target = false ∧
    c9Above.radius > c9Target.radius * collisionSizeRatio ∧
    canEat c9TeamA c9TeamB = false ∧
    canEat c9Dead c9Target = false ∧
    canEat c9Above c9Dead = false :=
  ⟨(C9_canEat_strict c9AtRatio c9Target).2.1 (by decide),
   (C9_canEat_strict c9Above c9Target).1 (by decide),
   (C9_canEat_strict c9TeamA c9TeamB).2.2.1 (by decide) (by decide),
   (C9_canEat_strict c9Dead c9Target).2.2.2.1 (by decide),
   (C9_canEat_strict c9Above c9Dead).2.2.2.2 (by decide)⟩

/-- The ledger of C10's scenarios: one wallet with 50¢ available and 10¢ in
escrow. -/
def c10Db : LedgerDB :=
  { wallets := [("u", ⟨50, 10, 0⟩)], profiles := [], txs := [], nextId := 7 }

/-- C10 counterexample: against a wallet holding only 10¢ in escrow, a
100¢ refund does *not* commit the claimed wallet update and `REFUND` row —
the `UPDATE` would drive `escrow_cents` to −90, the schema's
`escrow_cents >= 0` check constraint (applied by `migrate.ts`) fires, and
the transaction aborts with the ledger unchanged. -/
theorem C10_over_refund_aborts :
    lookupWallet c10Db.wallets "u" = some ⟨50, 10, 0⟩ ∧
    refundEscrow c10Db "u" 100 "m" =
      .error "new row violates wallets check constraint" := by
  exact ⟨by decide, by decide⟩

/-- C10 (amended): `refundEscrow`'s code performs no checks — `deposit`,
`withdraw` and `lockEscrow` all reject a non-positive amount, while
`refundEscrow` issues its `UPDATE` and `COMPLETED` `REFUND` row for any
amount — so every amount keeping both balances non-negative (zero and
negative included) commits: `available += a`, `escrow -= a`, `version`
bumped, `REFUND` row appended; but an amount exceeding the current escrow,
or a negative amount exceeding `available`, trips the schema's wallet
check constraints and the transaction aborts with no state change.
(`hnd` mirrors the `wallets.user_id` primary key.) -/
theorem C10_refund_unchecked (db : LedgerDB) (u m r meth : String)
    (k : Option String) (a : ℚ) (w : Wallet)
    (hnd : (db.wallets.map Prod.fst).Nodup)
    (hw : lookupWallet db.wallets u = some w) :
    (0 ≤ w.available + a → a ≤ w.escrow →
      refundEscrow db u a m = .ok
        { db with
            wallets := updateWallet db.wallets u (fun w =>
              { w with available := w.available + a, escrow := w.escrow - a,
                       version := w.version + 1 }),
            txs := db.txs ++
              [{ id := db.nextId, userId := u, txType := .refund,
                 amountCents := a, status := .completed, ref := m,
                 key := none }],
            nextId := db.nextId + 1 })
  ∧ (w.escrow < a →
      refundEscrow db u a m =
        .error "new row violates wallets check constraint")
  ∧ (w.available + a < 0 →
      refundEscrow db u a m =
        .error "new row violates wallets check constraint")
  ∧ (a ≤ 0 → deposit db u a r k = .error "Deposit amount must be positive")
  ∧ (a ≤ 0 → withdraw db u a meth k =
      .error "Withdrawal amount must be positive")
  ∧ (a ≤ 0 → lockEscrow db u a m = .error "Escrow amount must be positive") := by
  refine ⟨?_, ?_, ?_, ?_, ?_, ?_⟩
  · intro h1 h2
    have hall := all_updateWallet_true_of_nodup db.wallets u
      (fun w => { w with available := w.available + a, escrow := w.escrow - a,
                         version := w.version + 1 })
      walletRowOk w hnd hw
      (by simp [walletRowOk, h1, sub_nonneg.mpr h2])
    simp [refundEscrow, hall]
  · intro h
    have hbad : ¬ (0 ≤ w.escrow - a) := by linarith
    have hall := all_updateWallet_false_of_found db.wallets u
      (fun w => { w with available := w.available + a, escrow := w.escrow - a,
                         version := w.version + 1 })
      walletRowOk w hw (by simp [walletRowOk, hbad])
    simp [refundEscrow, hall]
  · intro h
    have hbad : ¬ (0 ≤ w.available + a) := by linarith
    have hall := all_updateWallet_false_of_found db.wallets u
      (fun w => { w with available := w.available + a, escrow := w.escrow - a,
                         version := w.version + 1 })
      walletRowOk w hw (by simp [walletRowOk, hbad])
    simp [refundEscrow, hall]
  · intro h
    simp [deposit, h]
  · intro h
    simp [withdraw, h]
  · intro h
    simp [lockEscrow, h]

/-- Witness for C10: refunding −5¢ (a negative amount, which the code
accepts unchecked) commits `available` 45 / `escrow` 15 with a `COMPLETED`
`REFUND` row, refunding 100¢ against the 10¢ escrow aborts on the check
constraint, and deposit/withdraw/lockEscrow all reject −5¢. -/
theorem C10_refund_unchecked_witness :
    refundEscrow c10Db "u" (-5) "m" = .ok
      { wallets := [("u", ⟨45, 15, 1⟩)], profiles := [],
        txs := [{ id := 7, userId := "u", txType := .refund,
                  amountCents := -5, status := .completed, ref := "m",
                  key := none }],
        nextId := 8 } ∧
    refundEscrow c10Db "u" 100 "m" =
      .error "new row violates wallets check constraint" ∧
    deposit c10Db "u" (-5) "r" none = .error "Deposit amount must be positive" ∧
    withdraw c10Db "u" (-5) "wire" none =
      .error "Withdrawal amount must be positive" ∧
    lockEscrow c10Db "u" (-5) "m" = .error "Escrow amount must be positive" :=
  have h₁ := C10_refund_unchecked c10Db "u" "m" "r" "wire" none (-5) ⟨50, 10, 0⟩
    (by decide) rfl
  have h₂ := C10_refund_unchecked c10Db "u" "m" "r" "wire" none 100 ⟨50, 10, 0⟩
    (by decide) rfl
  ⟨by rw [h₁.1 (by norm_num) (by norm_num)]; decide,
   h₂.2.1 (by norm_num),
   h₁.2.2.2.1 (by norm_num),
   h₁.2.2.2.2.1 (by norm_num),
   h₁.2.2.2.2.2 (by norm_num)⟩

/-- The ledger of C8's scenarios: one empty wallet, empty ledger. -/
def c8Db : LedgerDB :=
  { wallets := [("u", ⟨0, 0, 0⟩)], profiles := [], txs := [], nextId := 0 }

/-- C8 counterexample: at amount 0 — which the claim's "every amount"
includes — a deposit call is rejected outright, so two sequential calls
leave no `DEPOSIT` row at all and return no transaction id, not the one
completed row and two equal ids the claim asserts. -/
theorem C8_zero_amount_rejected :
    deposit c8Db "u" 0 "r" (some "k") =
      .error "Deposit amount must be positive" ∧
    findTxByKey c8Db.txs "k" = none := by
  refine ⟨by decide, by decide⟩

/-- C8 (amended): for every *positive* amount and a key with no prior row,
two sequential deposits with the same key have exactly one effect — one
completed `DEPOSIT` row, `available` raised once, `version` bumped once —
and return the same transaction id; and any call finding a non-completed
row under the key is rejected as busy.  (`hid` carries the uuid freshness
of the primary key into the counter model.) -/
theorem C8_deposit_idempotent (db : LedgerDB) (u r k : String) (a : ℚ)
    (w : Wallet)
    (hpos : 0 < a)
    (hfresh : findTxByKey db.txs k = none)
    (hid : ∀ row ∈ db.txs, row.id ≠ db.nextId)
    (hw : lookupWallet db.wallets u = some w) :
    ∃ db₁ : LedgerDB,
      deposit db u a r (some k) = .ok (db.nextId, db₁)
    ∧ deposit db₁ u a r (some k) = .ok (db.nextId, db₁)
    ∧ lookupWallet db₁.wallets u =
        some { w with available := w.available + a, version := w.version + 1 }
    ∧ db₁.txs = db.txs ++
        [{ id := db.nextId, userId := u, txType := .deposit, amountCents := a,
           status := .completed, ref := r, key := some k }]
    ∧ (∀ db' : LedgerDB, ∀ row, findTxByKey db'.txs k = some row →
         row.status ≠ .completed →
         deposit db' u a r (some k) =
           .error "Transaction already in progress") := by
  have hna : ¬ a ≤ 0 := not_le.mpr hpos
  refine ⟨{ db with
      wallets := updateWallet db.wallets u (fun w =>
        { w with available := w.available + a, version := w.version + 1 }),
      txs := db.txs ++
        [{ id := db.nextId, userId := u, txType := .deposit, amountCents := a,
           status := .completed, ref := r, key := some k }],
      nextId := db.nextId + 1 }, ?_, ?_, ?_, ?_, ?_⟩
  · unfold deposit
    rw [if_neg hna]
    show (match findTxByKey db.txs k with
      | some row => if row.status = TxStatus.completed then Except.ok (row.id, db)
          else .error "Transaction already in progress"
      | none => _) = _
    rw [hfresh]
    show Except.ok (db.nextId, _) = _
    have hset := setTxStatus_append_fresh db.txs
      { id := db.nextId, userId := u, txType := .deposit, amountCents := a,
        status := .pending, ref := r, key := some k } .completed hid
    simp only [hset]
  · unfold deposit
    rw [if_neg hna]
    have hfind : findTxByKey (db.txs ++
        [{ id := db.nextId, userId := u, txType := .deposit, amountCents := a,
           status := .completed, ref := r, key := some k }]) k =
        some { id := db.nextId, userId := u, txType := .deposit,
               amountCents := a, status := .completed, ref := r,
               key := some k } := by
      unfold findTxByKey at hfresh ⊢
      rw [find?_append_of_none _ _ _ hfresh]
      simp
    show (match findTxByKey (db.txs ++ _) k with
      | some row => if row.status = TxStatus.completed then Except.ok (row.id, _)
          else .error "Transaction already in progress"
      | none => _) = _
    rw [hfind]
    simp
  · simp [lookupWallet_updateWallet, hw]
  · rfl
  · intro db' row hfind hstat
    unfold deposit
    rw [if_neg hna]
    show (match findTxByKey db'.txs k with
      | some row => if row.status = TxStatus.completed then Except.ok (row.id, db')
          else .error "Transaction already in progress"
      | none => _) = _
    rw [hfind]
    exact if_neg hstat

/-- Witness for the amended C8 at a 5000¢ deposit with key `k` on the empty
ledger. -/
theorem C8_deposit_idempotent_witness :
    (0:ℚ) < 5000 ∧
    (∃ db₁ : LedgerDB,
      deposit c8Db "u" 5000 "r" (some "kk") = .ok (c8Db.nextId, db₁)
    ∧ deposit db₁ "u" 5000 "r" (some "kk") = .ok (c8Db.nextId, db₁)
    ∧ lookupWallet db₁.wallets "u" = some ⟨0 + 5000, 0, 0 + 1⟩
    ∧ db₁.txs = c8Db.txs ++
        [{ id := c8Db.nextId, userId := "u", txType := .deposit,
           amountCents := 5000, status := .completed, ref := "r",
           key := some "kk" }]
    ∧ (∀ db' : LedgerDB, ∀ row, findTxByKey db'.txs "kk" = some row →
         row.status ≠ .completed →
         deposit db' "u" 5000 "r" (some "kk") =
           .error "Transaction already in progress")) :=
  ⟨by norm_num,
   C8_deposit_idempotent c8Db "u" "r" "kk" 5000 ⟨0, 0, 0⟩ (by norm_num) rfl
     (by simp [c8Db]) rfl⟩

/-! ### The growth-cap invariant (C7) -/

/-- One engine operation touching a tracked cell: a motion tick, eating a
target, being eaten, consuming a pellet, or fog damage. -/
inductive CellOp where
  | motion (dt : ℚ) (now : ℤ)
  | eatTarget (t : Player)
  | eatenBy (e : Player)
  | eatPel (pel : Pellet)
  | fog (fogRadius dt : ℚ)

/-- Well-formedness of an operation: fog damage runs with a non-negative
time step (the engine always passes `Δt = 1/30`). -/
def fogDtNonneg : CellOp → Bool
  | .fog _ dt => decide (0 ≤ dt)
  | _ => true

/-- Apply one operation to the tracked cell through the transcribed engine
functions. -/
def applyCellOp (ops : NumOps) (growthCap : ℚ) (p : Player) : CellOp → Player
  | .motion dt now => updatePlayer ops p dt now
  | .eatTarget t => (eatPlayer ops p t growthCap).1
  | .eatenBy e => (eatPlayer ops e p growthCap).2.1
  | .eatPel pel => (eatPellet ops p pel growthCap).1
  | .fog fogR dt => applyFogDamage ops p fogR dt

/-- Run a sequence of operations on the tracked cell. -/
def runCellOps (ops : NumOps) (growthCap : ℚ) (p : Player)
    (l : List CellOp) : Player :=
  l.foldl (applyCellOp ops growthCap) p

/-- `updatePlayer` never changes mass. -/
lemma updatePlayer_mass (ops : NumOps) (p : Player) (dt : ℚ) (now : ℤ) :
    (updatePlayer ops p dt now).mass = p.mass := by
  unfold updatePlayer
  split <;> rfl

/-- One operation preserves `mass ≤ cap`. -/
lemma applyCellOp_mass_le (ops : NumOps) (cap : ℚ) (p : Player) (op : CellOp)
    (hp : p.mass ≤ cap) (hcap : 0 ≤ cap) (hop : fogDtNonneg op = true) :
    (applyCellOp ops cap p op).mass ≤ cap := by
  cases op with
  | motion dt now => simpa [applyCellOp, updatePlayer_mass] using hp
  | eatTarget t =>
      simp only [applyCellOp]
      unfold eatPlayer
      split_ifs <;> simp [hp, min_le_right]
  | eatenBy e =>
      simp only [applyCellOp]
      unfold eatPlayer
      split_ifs <;> simp [hp, hcap]
  | eatPel pel =>
      simp only [applyCellOp]
      unfold eatPellet
      split_ifs <;> simp [hp, min_le_right]
  | fog fogR dt =>
      have hdt : (0:ℚ) ≤ dt := by simpa [fogDtNonneg] using hop
      simp only [applyCellOp]
      by_cases h1 : p.isDead = true
      · simp [applyFogDamage, h1, hp]
      · by_cases h2 : ops.sqrt (p.posX ^ 2 + p.posY ^ 2) > fogR
        · have hmax : max 0 (p.mass - 5 * dt) ≤ cap := max_le hcap (by nlinarith)
          simp [applyFogDamage, h1, h2, hmax]
        · simp [applyFogDamage, h1, h2, hp]

/-- The invariant survives any operation sequence. -/
lemma runCellOps_mass_le (ops : NumOps) (cap : ℚ) (hcap : 0 ≤ cap) :
    ∀ (l : List CellOp) (p : Player), p.mass ≤ cap →
      (∀ op ∈ l, fogDtNonneg op = true) → (runCellOps ops cap p l).mass ≤ cap
  | [], p, hp, _ => hp
  | op :: rest, p, hp, hl =>
      runCellOps_mass_le ops cap hcap rest (applyCellOp ops cap p op)
        (applyCellOp_mass_le ops cap p op hp hcap (hl op (by simp)))
        (fun o ho => hl o (by simp [ho]))

/-- C7: a cell starting at the initial mass 10 within the growth cap never
exceeds the cap under any sequence of `updatePlayer`, `eatPlayer` (either
side), `eatPellet` and `applyFogDamage`: the mass-increasing operations
clamp with `min` against the cap, the others never increase mass. -/
theorem C7_growth_cap_invariant (ops : NumOps) (cap : ℚ) (p : Player)
    (l : List CellOp)
    (hmass : p.mass = 10) (hcap : 10 ≤ cap)
    (hl : ∀ op ∈ l, fogDtNonneg op = true) :
    (runCellOps ops cap p l).mass ≤ cap :=
  runCellOps_mass_le ops cap (le_trans (by norm_num) hcap) l p
    (hmass ▸ hcap) hl

/-- The tracked cell of C7's witness: freshly spawned, mass 10. -/
def c7P : Player := ⟨0, "u", 0, 0, 0, 3, 10, 0, 0, 0, 0, false, 0, false, 0⟩

/-- A small target cell. -/
def c7T : Player := ⟨1, "v", 0, 0, 0, 1, 2, 0, 0, 0, 0, false, 0, false, 0⟩

/-- A big cell that can eat the tracked one. -/
def c7E : Player := ⟨2, "w", 0, 0, 0, 9, 80, 0, 0, 0, 0, false, 0, false, 0⟩

/-- A pellet at the origin. -/
def c7Pel : Pellet := ⟨0, 0, 0, 1, 1, false⟩

/-- The witness operation sequence: a motion tick, a pellet, a kill, fog
damage, then being eaten. -/
def c7Run : List CellOp :=
  [.motion (1 / 30) 10001, .eatPel c7Pel, .eatTarget c7T,
   .fog 100 (1 / 30), .eatenBy c7E]

/-- Witness for C7 at growth cap `buy_in × 5 = 5000` on a concrete run. -/
theorem C7_growth_cap_invariant_witness :
    (10:ℚ) ≤ 5000 ∧ (runCellOps ratOps 5000 c7P c7Run).mass ≤ 5000 :=
  ⟨by norm_num,
   C7_growth_cap_invariant ratOps 5000 c7P c7Run rfl (by norm_num) (by decide)⟩

/-- C3: **refuted on the source** — two match simulations with identical
`(seed, member_ids, map_radius)` (here `detCfg`) and identical tick times,
differing only in the ambient `Math.random()` stream the pellet-respawn
step consults, end with different pellet position lists (one respawned
pellet versus none), so the runs are not byte-identical. -/
theorem C3_pellet_positions_diverge :
    runPelletPositions ratOps detCfg [1 / 20] ≠
      runPelletPositions ratOps detCfg [1 / 2] := by
  have h : runPelletPositionsFast ratOps detCfg [1 / 20] ≠
      runPelletPositionsFast ratOps detCfg [1 / 2] := by decide
  simpa [runPelletPositions_eq_fast] using h

/-! ### The zero commitment (C4) -/

/-- The commitment the service produces for `seed = "00"*32`,
`nonce = "00"*16`. -/
def zeroCommit : List ℕ := createCommit zeroSeedBytes zeroNonceBytes

/-- The bytes of the hex digest of the 96 `'0'`-bytes `seed ‖ nonce`,
cross-checked against an independent SHA-256 implementation. -/
def zeroCommitHexBytes : List ℕ :=
  strBytes "cb0216e7ae909ac5f758bc9bc9de34a36e93432ae178dea5a43fcdbf67202c76"

/-- The produced commitment is that digest. -/
lemma zeroCommit_eq : zeroCommit = zeroCommitHexBytes := by decide

/-- Turn an evaluated `List.all` over `List.range' a n` into an interval
`∀`. -/
lemma ball_of_all_range' {a n : ℕ} {p : ℕ → Bool}
    (h : (List.range' a n).all p = true) :
    ∀ i, a ≤ i → i < a + n → p i = true :=
  fun i h1 h2 =>
    List.all_eq_true.mp h i (List.mem_range'_1.mpr ⟨h1, h2⟩)

/-- The seed-flip predicate: flipping seed bit `i` makes `verify` reject. -/
def seedFlipRejected (i : ℕ) : Bool :=
  !(verifyCommitment (flipBit zeroSeedBytes i) zeroNonceBytes
      zeroCommitHexBytes)

/-- The nonce-flip predicate. -/
def nonceFlipRejected (i : ℕ) : Bool :=
  !(verifyCommitment zeroSeedBytes (flipBit zeroNonceBytes i)
      zeroCommitHexBytes)

/-- Seed bit flips 0–63 are rejected (the 512 seed-bit and 256 nonce-bit
checks are evaluated in 64-bit chunks, one digest per bit). -/
lemma seedFlips0 : ((List.range' 0 64).all seedFlipRejected) = true := by decide

/-- Seed bit flips 64–127 are rejected. -/
lemma seedFlips1 : ((List.range' 64 64).all seedFlipRejected) = true := by decide

/-- Seed bit flips 128–191 are rejected. -/
lemma seedFlips2 : ((List.range' 128 64).all seedFlipRejected) = true := by decide

/-- Seed bit flips 192–255 are rejected. -/
lemma seedFlips3 : ((List.range' 192 64).all seedFlipRejected) = true := by decide

/-- Seed bit flips 256–319 are rejected. -/
lemma seedFlips4 : ((List.range' 256 64).all seedFlipRejected) = true := by decide

/-- Seed bit flips 320–383 are rejected. -/
lemma seedFlips5 : ((List.range' 320 64).all seedFlipRejected) = true := by decide

/-- Seed bit flips 384–447 are rejected. -/
lemma seedFlips6 : ((List.range' 384 64).all seedFlipRejected) = true := by decide

/-- Seed bit flips 448–511 are rejected. -/
lemma seedFlips7 : ((List.range' 448 64).all seedFlipRejected) = true := by decide

/-- Nonce bit flips 0–63 are rejected. -/
lemma nonceFlips0 : ((List.range' 0 64).all nonceFlipRejected) = true := by decide

/-- Nonce bit flips 64–127 are rejected. -/
lemma nonceFlips1 : ((List.range' 64 64).all nonceFlipRejected) = true := by decide

/-- Nonce bit flips 128–191 are rejected. -/
lemma nonceFlips2 : ((List.range' 128 64).all nonceFlipRejected) = true := by decide

/-- Nonce bit flips 192–255 are rejected. -/
lemma nonceFlips3 : ((List.range' 192 64).all nonceFlipRejected) = true := by decide

/-- Any rejected seed flip below 512, assembled from the chunks. -/
lemma seedFlips_all (i : ℕ) (hi : i < 512) : seedFlipRejected i = true := by
  rcases Nat.lt_or_ge i 64 with h | h
  · exact ball_of_all_range' seedFlips0 i (Nat.zero_le _) (by omega)
  rcases Nat.lt_or_ge i 128 with h1 | h1
  · exact ball_of_all_range' seedFlips1 i h (by omega)
  rcases Nat.lt_or_ge i 192 with h2 | h2
  · exact ball_of_all_range' seedFlips2 i h1 (by omega)
  rcases Nat.lt_or_ge i 256 with h3 | h3
  · exact ball_of_all_range' seedFlips3 i h2 (by omega)
  rcases Nat.lt_or_ge i 320 with h4 | h4
  · exact ball_of_all_range' seedFlips4 i h3 (by omega)
  rcases Nat.lt_or_ge i 384 with h5 | h5
  · exact ball_of_all_range' seedFlips5 i h4 (by omega)
  rcases Nat.lt_or_ge i 448 with h6 | h6
  · exact ball_of_all_range' seedFlips6 i h5 (by omega)
  exact ball_of_all_range' seedFlips7 i h6 (by omega)

/-- Any rejected nonce flip below 256, assembled from the chunks. -/
lemma nonceFlips_all (i : ℕ) (hi : i < 256) : nonceFlipRejected i = true := by
  rcases Nat.lt_or_ge i 64 with h | h
  · exact ball_of_all_range' nonceFlips0 i (Nat.zero_le _) (by omega)
  rcases Nat.lt_or_ge i 128 with h1 | h1
  · exact ball_of_all_range' nonceFlips1 i h (by omega)
  rcases Nat.lt_or_ge i 192 with h2 | h2
  · exact ball_of_all_range' nonceFlips2 i h1 (by omega)
  exact ball_of_all_range' nonceFlips3 i h2 (by omega)

/-- Every commit bit flip differs from the true digest. -/
lemma commitFlips_all :
    ((List.range 512).all fun i =>
      !(zeroCommitHexBytes == flipBit zeroCommitHexBytes i)) = true := by decide

/-- C4: for `seed = "00"*32`, `nonce = "00"*16`, `createCommit` yields the
hex SHA-256 digest of the 96 bytes of `seed ‖ nonce`; `verify` accepts the
triple, and flipping any bit of the seed, the nonce or the commit makes
`verify` reject. -/
theorem C4_zero_commitment :
    createCommit zeroSeedBytes zeroNonceBytes = zeroCommitHexBytes
  ∧ verifyCommitment zeroSeedBytes zeroNonceBytes zeroCommit = true
  ∧ (∀ i, i < 512 →
      verifyCommitment (flipBit zeroSeedBytes i) zeroNonceBytes zeroCommit =
        false)
  ∧ (∀ i, i < 256 →
      verifyCommitment zeroSeedBytes (flipBit zeroNonceBytes i) zeroCommit =
        false)
  ∧ (∀ i, i < 512 →
      verifyCommitment zeroSeedBytes zeroNonceBytes (flipBit zeroCommit i) =
        false) := by
  have hz : zeroCommit = zeroCommitHexBytes := zeroCommit_eq
  refine ⟨hz, ?_, ?_, ?_, ?_⟩
  · simp [verifyCommitment, zeroCommit]
  · intro i hi
    rw [hz]
    simpa [seedFlipRejected] using seedFlips_all i hi
  · intro i hi
    rw [hz]
    simpa [nonceFlipRejected] using nonceFlips_all i hi
  · intro i hi
    rw [hz]
    show (createCommit zeroSeedBytes zeroNonceBytes ==
      flipBit zeroCommitHexBytes i) = false
    rw [show createCommit zeroSeedBytes zeroNonceBytes = zeroCommitHexBytes
      from hz]
    simpa using ballLT_of_all commitFlips_all i hi

/-- Witness for C4's flip clauses at concrete bit positions 0, 255 and
511. -/
theorem C4_zero_commitment_witness :
    verifyCommitment (flipBit zeroSeedBytes 0) zeroNonceBytes zeroCommit =
      false ∧
    verifyCommitment zeroSeedBytes (flipBit zeroNonceBytes 255) zeroCommit =
      false ∧
    verifyCommitment zeroSeedBytes zeroNonceBytes (flipBit zeroCommit 511) =
      false :=
  ⟨C4_zero_commitment.2.2.1 0 (by decide),
   C4_zero_commitment.2.2.2.1 255 (by decide),
   C4_zero_commitment.2.2.2.2 511 (by decide)⟩

end Agar
